import Mathlib

/-!
Verification of the patient/trial matching core (`proc.py`).

Shallow embedding conventions:
* Python `str` is modelled as Lean `String` (a list of Unicode scalar values);
  whitespace-split tokens are modelled as `List Char`.
* Python builtins are embedded over a documented subset of the Unicode tables:
  - `str.isdigit` accepts decimal digits (category Nd) and characters with
    Numeric_Type=Digit such as the superscripts ¹ ² ³ and U+2070..U+2079.
    The modelled Nd subset is the ASCII digits; the modelled Digit-only subset
    is the superscripts.
  - `int(...)` on such a token succeeds only when every character is an Nd
    decimal digit (superscripts make it raise `ValueError`).
  - `str.lower` / `str.upper` are modelled on the ASCII range (the only range
    the program's comparisons use).
  - `str.split()` splits on runs of whitespace and drops empty pieces; the
    modelled whitespace set is space, tab, newline, carriage return, vertical
    tab and form feed.
* A Python function that can raise is embedded as an `Option`-valued function,
  `none` meaning an uncaught exception.
-/

/-- Modelled subset of Python `str.isspace` characters (used by `str.split()`
and by the regex class `\s` in `quote_for_essie`). -/
def pySpaceChar (c : Char) : Bool :=
  c = ' ' || c = '\t' || c = '\n' || c = '\r' || c = '\x0b' || c = '\x0c'

/-- Modelled subset of the characters Python `str.isdigit` accepts: the ASCII
decimal digits (category Nd) plus the superscript digits (Numeric_Type=Digit
but not Nd): ¹ ² ³ and U+2070..U+2079. -/
def pyIsDigitChar (c : Char) : Bool :=
  c.isDigit || c = '¹' || c = '²' || c = '³' || c = '⁰' || c = '⁴' ||
    c = '⁵' || c = '⁶' || c = '⁷' || c = '⁸' || c = '⁹'

/-- Python `tok.isdigit()` for a token: true iff the token is non-empty and
every character passes the digit test. -/
def pyIsDigitTok (t : List Char) : Bool :=
  !t.isEmpty && t.all pyIsDigitChar

/-- Decimal value of a token of ASCII digits, most significant first. -/
def tokVal (t : List Char) : Nat :=
  t.foldl (fun a c => 10 * a + (c.toNat - '0'.toNat)) 0

/-- Python `int(tok)` applied to a whitespace-free token: succeeds iff every
character is an Nd decimal digit (modelled: ASCII `0`-`9`), else raises
`ValueError` (`none`). -/
def pyIntOfTok (t : List Char) : Option Nat :=
  if !t.isEmpty && t.all Char.isDigit then some (tokVal t) else none

/-- Helper for Python `str.split()`: accumulates the current (reversed) run of
non-space characters and emits it when a space or the end is reached. -/
def splitWsAux : List Char → List Char → List (List Char)
  | [], cur => if cur.isEmpty then [] else [cur.reverse]
  | c :: rest, cur =>
      if pySpaceChar c then
        if cur.isEmpty then splitWsAux rest []
        else cur.reverse :: splitWsAux rest []
      else splitWsAux rest (c :: cur)

/-- Python `s.split()` (no separator): split on runs of whitespace, dropping
empty pieces. -/
def pySplitTokens (s : String) : List (List Char) :=
  splitWsAux s.data []

/-- Python `s.lower()` (modelled on the ASCII range). -/
def pyLower (s : String) : String := ⟨s.data.map Char.toLower⟩

/-- Python `s.upper()` (modelled on the ASCII range). -/
def pyUpper (s : String) : String := ⟨s.data.map Char.toUpper⟩

/-- Python `s.startswith(pre)`. -/
def pyStartsWith (s pre : String) : Bool := pre.data.isPrefixOf s.data

/-- `parse_age_string` (proc.py lines 82-89).  Returns `none` when the Python
code would raise: `int(p)` is reached for every token accepted by
`p.isdigit()`, and it raises `ValueError` when such a token contains a
non-decimal digit character (e.g. a superscript). -/
def parse_age_string (s : String) : Option Nat :=
  if s.data.isEmpty || pyStartsWith (pyLower s) "n/a" then some 0
  else
    match (pySplitTokens s).find? pyIsDigitTok with
    | some p => pyIntOfTok p
    | none => some 0

/-- Modelled from the spec (§4.1): "if the text is empty/absent, or
(case-insensitively) begins with n/a, return 0. Otherwise split on whitespace
and return the first whitespace-delimited token that is composed entirely of
decimal digits, parsed as an integer; if no such token exists, return 0."
Used only to compare the spec's description against `parse_age_string`. -/
def parseAgeSpec (s : String) : Nat :=
  if s.data.isEmpty || pyStartsWith (pyLower s) "n/a" then 0
  else
    match (pySplitTokens s).find? (fun t => !t.isEmpty && t.all Char.isDigit) with
    | some p => tokVal p
    | none => 0

/-- Every character of every token produced by `splitWsAux` comes from the
input list or the accumulator. -/
theorem splitWsAux_chars_subset :
    ∀ (l cur t : List Char), t ∈ splitWsAux l cur →
      ∀ c ∈ t, c ∈ l ∨ c ∈ cur := by
  intro l
  induction l with
  | nil =>
      intro cur t ht c hc
      unfold splitWsAux at ht
      by_cases h : cur.isEmpty = true
      · rw [if_pos h] at ht
        exact absurd ht (List.not_mem_nil t)
      · rw [if_neg h] at ht
        rw [List.mem_singleton] at ht
        subst ht
        exact Or.inr (List.mem_reverse.mp hc)
  | cons a rest ih =>
      intro cur t ht c hc
      unfold splitWsAux at ht
      by_cases hsp : pySpaceChar a = true
      · rw [if_pos hsp] at ht
        by_cases hemp : cur.isEmpty = true
        · rw [if_pos hemp] at ht
          rcases ih [] t ht c hc with h | h
          · exact Or.inl (List.mem_cons_of_mem _ h)
          · exact absurd h (List.not_mem_nil c)
        · rw [if_neg hemp] at ht
          rcases List.mem_cons.mp ht with rfl | ht2
          · exact Or.inr (List.mem_reverse.mp hc)
          · rcases ih [] t ht2 c hc with h | h
            · exact Or.inl (List.mem_cons_of_mem _ h)
            · exact absurd h (List.not_mem_nil c)
      · rw [if_neg hsp] at ht
        rcases ih (a :: cur) t ht c hc with h | h
        · exact Or.inl (List.mem_cons_of_mem _ h)
        · rcases List.mem_cons.mp h with rfl | h2
          · exact Or.inl (List.mem_cons_self _ _)
          · exact Or.inr h2

/-- `List.find?` only depends on the values of the predicate on the list. -/
theorem find?_congr_pred {α : Type} (p q : α → Bool) :
    ∀ l : List α, (∀ x ∈ l, p x = q x) → l.find? p = l.find? q := by
  intro l
  induction l with
  | nil => intro _; rfl
  | cons a rest ih =>
      intro h
      simp only [List.find?]
      rw [h a (List.mem_cons_self _ _)]
      by_cases hq : q a
      · simp [hq]
      · simp only [Bool.not_eq_true] at hq
        simp [hq, ih fun x hx => h x (List.mem_cons_of_mem _ hx)]

/-- `List.all` only depends on the values of the predicate on the list. -/
theorem all_congr_pred {α : Type} (p q : α → Bool) :
    ∀ l : List α, (∀ x ∈ l, p x = q x) → l.all p = l.all q := by
  intro l
  induction l with
  | nil => intro _; rfl
  | cons a rest ih =>
      intro h
      simp only [List.all_cons]
      rw [h a (List.mem_cons_self _ _), ih fun x hx => h x (List.mem_cons_of_mem _ hx)]

/-- On ASCII characters the Python digit test coincides with the decimal test. -/
theorem pyIsDigitChar_ascii (c : Char) (h : c.toNat < 128) :
    pyIsDigitChar c = c.isDigit := by
  have hne : ∀ d : Char, 127 < d.toNat → c ≠ d := by
    intro d hd hc
    subst hc
    omega
  unfold pyIsDigitChar
  simp [hne '¹' (by decide), hne '²' (by decide), hne '³' (by decide),
    hne '⁰' (by decide), hne '⁴' (by decide), hne '⁵' (by decide),
    hne '⁶' (by decide), hne '⁷' (by decide), hne '⁸' (by decide),
    hne '⁹' (by decide)]

/-- C2: refuted (code bug).  `parse_age_string` is NOT total on all strings:
the token "²" (superscript two) passes Python's digit test `p.isdigit()`, but
the integer conversion `int(p)` raises `ValueError` on it, so
`parse_age_string "²"` raises instead of returning a non-negative integer. -/
theorem parse_age_string_not_total :
    pyIsDigitTok "²".data = true ∧ pyIntOfTok "²".data = none ∧
      parse_age_string "²" = none := by
  decide

/-- C8 counterexample: on input "²" the code raises (`none`) while the spec's
algorithm (first token of decimal digits, else 0) yields the integer 0, so the
claimed input/output description fails at "²". -/
theorem parse_age_string_spec_counterexample :
    parse_age_string "²" = none ∧ parseAgeSpec "²" = 0 := by
  decide

/-- C8 (amended to ASCII inputs): for every string of ASCII characters,
`parse_age_string` returns 0 when the input is empty or begins
case-insensitively with "n/a", and otherwise returns the integer value of the
first whitespace-delimited token composed entirely of decimal digits, or 0 if
no such token exists — exactly the spec's algorithm `parseAgeSpec`. -/
theorem parse_age_string_eq_spec_on_ascii (s : String)
    (h : s.data.all (fun c => decide (c.toNat < 128)) = true) :
    parse_age_string s = some (parseAgeSpec s) := by
  unfold parse_age_string parseAgeSpec
  by_cases hg : (s.data.isEmpty || pyStartsWith (pyLower s) "n/a") = true
  · rw [if_pos hg, if_pos hg]
  · rw [if_neg hg, if_neg hg]
    have hfind : (pySplitTokens s).find? pyIsDigitTok
        = (pySplitTokens s).find? (fun t => !t.isEmpty && t.all Char.isDigit) := by
      apply find?_congr_pred
      intro t ht
      have hascii : ∀ c ∈ t, c.toNat < 128 := by
        intro c hc
        rcases splitWsAux_chars_subset s.data [] t ht c hc with hcl | hcl
        · exact of_decide_eq_true (List.all_eq_true.mp h c hcl)
        · exact absurd hcl (List.not_mem_nil c)
      unfold pyIsDigitTok
      rw [all_congr_pred pyIsDigitChar Char.isDigit t
        fun c hc => pyIsDigitChar_ascii c (hascii c hc)]
    rw [hfind]
    cases hf : (pySplitTokens s).find? (fun t => !t.isEmpty && t.all Char.isDigit) with
    | none => rfl
    | some p =>
        have hp := List.find?_some hf
        simp [pyIntOfTok, hp]

/-- Witness for the amended C8 theorem at the concrete input "18 Years". -/
theorem parse_age_string_eq_spec_on_ascii_witness :
    parse_age_string "18 Years" = some (parseAgeSpec "18 Years") ∧
      parseAgeSpec "18 Years" = 18 :=
  ⟨parse_age_string_eq_spec_on_ascii "18 Years" (by decide), by decide⟩

/-- The `eligibilityModule` dictionary of a study (proc.py lines 95-97 read it
with `.get` and string defaults); a missing key is `none`. -/
structure Eligibility where
  minimumAge : Option String
  maximumAge : Option String
  sex : Option String
  deriving DecidableEq

/-- `meets_structured_criteria` (proc.py lines 92-112).  `none` models the
`ValueError` that `parse_age_string` can raise on either bound; the Python
code parses both bounds before any comparison. -/
def meets_structured_criteria (patient_age : Int) (patient_gender : String)
    (eligibility : Eligibility) : Option Bool :=
  (parse_age_string (eligibility.minimumAge.getD "")).bind fun min_age =>
  (parse_age_string (eligibility.maximumAge.getD "")).bind fun max_age =>
  let sex_str := eligibility.sex.getD "ALL"
  if min_age ≠ 0 ∧ patient_age < (min_age : Int) then some false
  else if max_age ≠ 0 ∧ patient_age > (max_age : Int) then some false
  else if sex_str = "FEMALE" ∧ pyUpper patient_gender ∉ (["FEMALE", "F"] : List String) then
    some false
  else if sex_str = "MALE" ∧ pyUpper patient_gender ∉ (["MALE", "M"] : List String) then
    some false
  else some true

/-- C5: confirmed.  When both age bounds parse (to `m` and `M`),
`meets_structured_criteria` returns a boolean, and it returns `true` exactly
when: a non-zero `m` does not exceed the patient age, a non-zero `M` is not
exceeded by it, a "FEMALE" rule sees an uppercased patient sex of "FEMALE" or
"F", and a "MALE" rule sees "MALE" or "M".  In particular a bound that parses
to 0 (e.g. empty or missing age text) never causes an age rejection. -/
theorem meets_structured_criteria_spec (patient_age : Int) (patient_gender : String)
    (eligibility : Eligibility) (m M : Nat)
    (hmin : parse_age_string (eligibility.minimumAge.getD "") = some m)
    (hmax : parse_age_string (eligibility.maximumAge.getD "") = some M) :
    (meets_structured_criteria patient_age patient_gender eligibility).isSome = true ∧
    (meets_structured_criteria patient_age patient_gender eligibility = some true ↔
      ((m ≠ 0 → (m : Int) ≤ patient_age) ∧
       (M ≠ 0 → patient_age ≤ (M : Int)) ∧
       (eligibility.sex.getD "ALL" = "FEMALE" →
         pyUpper patient_gender = "FEMALE" ∨ pyUpper patient_gender = "F") ∧
       (eligibility.sex.getD "ALL" = "MALE" →
         pyUpper patient_gender = "MALE" ∨ pyUpper patient_gender = "M"))) := by
  unfold meets_structured_criteria
  rw [hmin, hmax]
  simp only [Option.some_bind]
  constructor
  · split_ifs <;> rfl
  · split_ifs with h1 h2 h3 h4
    · simp only [show (some false = some true) = False by simp, false_iff]
      rintro ⟨hA, _, _, _⟩
      have := hA h1.1
      omega
    · simp only [show (some false = some true) = False by simp, false_iff]
      rintro ⟨_, hB, _, _⟩
      have := hB h2.1
      omega
    · simp only [show (some false = some true) = False by simp, false_iff]
      rintro ⟨_, _, hC, _⟩
      rcases h3 with ⟨hsex, hmem⟩
      exact hmem (by simpa using hC hsex)
    · simp only [show (some false = some true) = False by simp, false_iff]
      rintro ⟨_, _, _, hD⟩
      rcases h4 with ⟨hsex, hmem⟩
      exact hmem (by simpa using hD hsex)
    · simp only [show (some true = some true) = True by simp, true_iff]
      push_neg at h1 h2 h3 h4
      refine ⟨fun hm => ?_, fun hM => ?_, fun hsex => ?_, fun hsex => ?_⟩
      · have := h1 hm
        omega
      · have := h2 hM
        omega
      · have := h3 hsex
        simpa using this
      · have := h4 hsex
        simpa using this

/-- A concrete eligibility rule used by witnesses: 18-65 years, FEMALE. -/
def eligSample : Eligibility :=
  ⟨some "18 Years", some "65 Years", some "FEMALE"⟩

/-- Witness for C5 at a concrete input: a 30-year-old patient of sex "F"
passes the 18-65 FEMALE rule. -/
theorem meets_structured_criteria_spec_witness :
    meets_structured_criteria 30 "F" eligSample = some true := by
  have h := meets_structured_criteria_spec 30 "F" eligSample 18 65 (by decide) (by decide)
  exact h.2.mpr (by decide)

/-- Characters the regex class `[\s(){}\[\]]` of `quote_for_essie` matches. -/
def essieSpecialChar (c : Char) : Bool :=
  pySpaceChar c || c ∈ (['(', ')', '\x7b', '\x7d', '[', ']'] : List Char)

/-- Python `s.replace('"', '\\"')` over the character list: each double quote
becomes backslash-quote. -/
def pyEscapeQuotes (l : List Char) : List Char :=
  l.flatMap fun c => if c = '"' then ['\\', '"'] else [c]

/-- `quote_for_essie` (proc.py lines 115-119). -/
def quote_for_essie (s : String) : String :=
  if s.data.any essieSpecialChar then ⟨'"' :: pyEscapeQuotes s.data ++ ['"']⟩
  else s

/-- C7: confirmed.  If the input contains a whitespace or bracket character,
`quote_for_essie` wraps it in double quotes after replacing every embedded
double quote by backslash-double-quote; otherwise (including the empty
string) the input is returned unmodified. -/
theorem quote_for_essie_spec (s : String) :
    ((∃ c ∈ s.data, pySpaceChar c = true ∨ c ∈ (['(', ')', '\x7b', '\x7d', '[', ']'] : List Char)) →
      (quote_for_essie s).data =
        '"' :: (s.data.flatMap fun c => if c = '"' then ['\\', '"'] else [c]) ++ ['"']) ∧
    ((¬ ∃ c ∈ s.data, pySpaceChar c = true ∨ c ∈ (['(', ')', '\x7b', '\x7d', '[', ']'] : List Char)) →
      quote_for_essie s = s) := by
  have hiff : s.data.any essieSpecialChar = true ↔
      ∃ c ∈ s.data, pySpaceChar c = true ∨ c ∈ (['(', ')', '\x7b', '\x7d', '[', ']'] : List Char) := by
    rw [List.any_eq_true]
    constructor
    · rintro ⟨c, hc, hp⟩
      refine ⟨c, hc, ?_⟩
      unfold essieSpecialChar at hp
      simpa using hp
    · rintro ⟨c, hc, hp⟩
      refine ⟨c, hc, ?_⟩
      unfold essieSpecialChar
      simpa using hp
  constructor
  · intro hex
    unfold quote_for_essie
    rw [if_pos (hiff.mpr hex)]
    rfl
  · intro hnex
    unfold quote_for_essie
    rw [if_neg (fun h => hnex (hiff.mp h))]

/-- Witness for C7: a multi-word condition is quoted, the empty string and a
single-word condition pass through unmodified. -/
theorem quote_for_essie_spec_witness :
    quote_for_essie "type 2 diabetes" = "\"type 2 diabetes\"" ∧
      quote_for_essie "" = "" ∧ quote_for_essie "diabetes" = "diabetes" := by
  refine ⟨?_, ?_, ?_⟩
  · have h := (quote_for_essie_spec "type 2 diabetes").1 (by decide)
    exact String.ext (h.trans (by decide))
  · exact (quote_for_essie_spec "").2 (by decide)
  · exact (quote_for_essie_spec "diabetes").2 (by decide)

/-- `intersect_conditions` — the condition-intersection step of
`match_patient_to_trials` (proc.py lines 192-197): retain each trial
condition, in trial order and original casing, whose lowercased form is in
the set of lowercased patient conditions.  (Python builds that set from the
patient list; set membership coincides with membership in the list of
lowered patient conditions.  The lowered trial-condition set the code also
builds on line 192 is never read.) -/
def intersect_conditions (patient_conditions trial_conditions : List String) : List String :=
  trial_conditions.filter fun c => (patient_conditions.map pyLower).contains (pyLower c)

/-- Membership in the lowered patient-condition set, spelled as an existential
over the original patient list. -/
theorem contains_lower_iff (pcs : List String) (c : String) :
    ((pcs.map pyLower).contains (pyLower c) = true) ↔
      ∃ p ∈ pcs, pyLower p = pyLower c := by
  constructor
  · intro h
    have hmem : pyLower c ∈ pcs.map pyLower := by
      simpa using h
    rcases List.mem_map.mp hmem with ⟨p, hp, hpe⟩
    exact ⟨p, hp, hpe⟩
  · rintro ⟨p, hp, hpe⟩
    have hmem : pyLower c ∈ pcs.map pyLower := List.mem_map.mpr ⟨p, hp, hpe⟩
    simpa using hmem

/-- C6: confirmed.  The intersection retains a trial condition — in the
trial's original order and casing — iff its lowercased form equals the
lowercased form of some patient condition; duplicate trial conditions are
tested independently, so each passing occurrence is kept (the occurrence
counts agree with the trial list wherever the test passes, and are zero
where it fails). -/
theorem intersect_conditions_spec (pcs tcs : List String) :
    (intersect_conditions pcs tcs).Sublist tcs ∧
    intersect_conditions pcs tcs =
      tcs.filter (fun c => decide (∃ p ∈ pcs, pyLower p = pyLower c)) ∧
    ∀ c : String, (intersect_conditions pcs tcs).count c =
      if ∃ p ∈ pcs, pyLower p = pyLower c then tcs.count c else 0 := by
  have hfe : intersect_conditions pcs tcs =
      tcs.filter (fun c => decide (∃ p ∈ pcs, pyLower p = pyLower c)) := by
    unfold intersect_conditions
    apply List.filter_congr
    intro c _
    have h := contains_lower_iff pcs c
    by_cases hb : (pcs.map pyLower).contains (pyLower c) = true
    · rw [hb]
      exact (decide_eq_true (h.mp hb)).symm
    · have hb' : (pcs.map pyLower).contains (pyLower c) = false := by
        simpa using hb
      rw [hb']
      exact (decide_eq_false fun hex => hb (h.mpr hex)).symm
  refine ⟨?_, hfe, ?_⟩
  · unfold intersect_conditions
    exact List.filter_sublist _
  · intro c
    rw [hfe]
    by_cases hc : ∃ p ∈ pcs, pyLower p = pyLower c
    · rw [if_pos hc]
      exact List.count_filter (by simpa using hc)
    · rw [if_neg hc]
      refine List.count_eq_zero.mpr fun hmem => ?_
      have hpc := (List.mem_filter.mp hmem).2
      exact hc (by simpa using hpc)

/-- One study record as consumed by `match_patient_to_trials` (proc.py lines
184-204).  The Python code reads nested dictionaries with `.get(..., {})`
defaults, so a missing `protocolSection`, a missing module, a missing key, or
(for `conditions`, thanks to the `or []` on line 191) a null value all
collapse to the same default; each is modelled as `none`. -/
structure Study where
  eligibilityModule : Option Eligibility
  conditions : Option (List String)
  nctId : Option String
  briefTitle : Option String
  deriving DecidableEq

/-- One emitted match (proc.py lines 206-212). -/
structure MatchRec where
  trialId : String
  trialName : String
  eligibilityCriteriaMet : List String
  deriving DecidableEq

/-- The empty eligibility dictionary `{}`. -/
def eligEmpty : Eligibility := ⟨none, none, none⟩

/-- The body of the per-study loop (proc.py lines 184-212): outer `none` is a
propagated exception, `some none` a `continue` (study discarded), and
`some (some m)` an appended match. -/
def process_study (age : Int) (gender : String) (patient_conditions : List String)
    (st : Study) : Option (Option MatchRec) :=
  (meets_structured_criteria age gender (st.eligibilityModule.getD eligEmpty)).bind
    fun ok_structured =>
      if !ok_structured then some none
      else
        let intersecting_conds :=
          intersect_conditions patient_conditions (st.conditions.getD [])
        if intersecting_conds.isEmpty then some none
        else some (some ⟨st.nctId.getD "", st.briefTitle.getD "", intersecting_conds⟩)

/-- The `for st in trials_data` loop of `match_patient_to_trials`, collecting
the emitted matches in order. -/
def process_studies (age : Int) (gender : String) (patient_conditions : List String) :
    List Study → Option (List MatchRec)
  | [] => some []
  | st :: rest =>
      (process_study age gender patient_conditions st).bind fun r =>
        (process_studies age gender patient_conditions rest).map fun ms =>
          match r with
          | none => ms
          | some m => m :: ms

/-- The value of `patient_row.get("CONDITION_LIST", [])` (proc.py lines
174-176): the field may be absent (the `.get` default applies), present but
not a list (the `isinstance` check replaces it with `[]`), or a list. -/
inductive CondListField
  | absent
  | notList
  | ofList (cs : List String)
  deriving DecidableEq

/-- The patient condition list after the coercion on lines 174-176. -/
def get_condition_list : CondListField → List String
  | .absent => []
  | .notList => []
  | .ofList cs => cs

/-- Default trial statuses (proc.py line 170). -/
def default_statuses : List String := ["RECRUITING", "ENROLLING_BY_INVITATION"]

/-- `match_patient_to_trials` (proc.py lines 166-213).  The registry is the
oracle `fetch` (condition, age, statuses ↦ fetched studies, in response
order); the second component of the result counts how many registry fetches
were issued.  Outer `none` is a propagated exception. -/
def match_patient_to_trials (age : Int) (gender : String) (condField : CondListField)
    (statuses : List String) (fetch : String → Int → List String → List Study) :
    Option (List MatchRec × Nat) :=
  match get_condition_list condField with
  | [] => some ([], 0)
  | primary :: rest =>
      (process_studies age gender (primary :: rest) (fetch primary age statuses)).map
        fun matched => (matched, 1)

/-- The spec's description of which fetched trials survive: structured
criteria pass and the case-insensitive condition intersection is non-empty. -/
def trialPasses (age : Int) (gender : String) (pcs : List String) (st : Study) : Bool :=
  (meets_structured_criteria age gender (st.eligibilityModule.getD eligEmpty)
      == some true) &&
    !(intersect_conditions pcs (st.conditions.getD [])).isEmpty

/-- The Match the spec prescribes for a surviving trial: its id, title, and
the condition intersection. -/
def matchOfStudy (pcs : List String) (st : Study) : MatchRec :=
  ⟨st.nctId.getD "", st.briefTitle.getD "",
    intersect_conditions pcs (st.conditions.getD [])⟩

/-- The spec's match list: one Match per surviving trial, in response order. -/
def specMatches (age : Int) (gender : String) (pcs : List String)
    (trials : List Study) : List MatchRec :=
  (trials.filter (trialPasses age gender pcs)).map (matchOfStudy pcs)

/-- When the study loop completes without an exception, it produces exactly
the spec's match list. -/
theorem process_studies_eq_spec (age : Int) (gender : String) (pcs : List String) :
    ∀ (trials : List Study) (ms : List MatchRec),
      process_studies age gender pcs trials = some ms →
      ms = specMatches age gender pcs trials := by
  intro trials
  induction trials with
  | nil =>
      intro ms h
      unfold process_studies at h
      unfold specMatches
      simp only [Option.some.injEq] at h
      simp [← h]
  | cons st rest ih =>
      intro ms h
      unfold process_studies at h
      cases hok : meets_structured_criteria age gender (st.eligibilityModule.getD eligEmpty) with
      | none =>
          unfold process_study at h
          rw [hok] at h
          simp at h
      | some ok =>
          unfold process_study at h
          rw [hok] at h
          simp only [Option.some_bind] at h
          cases ok with
          | false =>
              simp only [Bool.not_false, if_true] at h
              simp only [Option.some_bind] at h
              cases hrest : process_studies age gender pcs rest with
              | none => rw [hrest] at h; simp at h
              | some ms' =>
                  rw [hrest] at h
                  simp only [Option.map_some'] at h
                  simp only [Option.some.injEq] at h
                  have hpass : trialPasses age gender pcs st = false := by
                    unfold trialPasses
                    rw [hok]
                    simp
                  unfold specMatches
                  rw [List.filter_cons_of_neg (by simp [hpass])]
                  rw [← h]
                  exact ih ms' hrest
          | true =>
              rw [if_neg (show ¬((!true) = true) by decide)] at h
              by_cases hint : (intersect_conditions pcs (st.conditions.getD [])).isEmpty = true
              · rw [if_pos hint] at h
                simp only [Option.some_bind] at h
                cases hrest : process_studies age gender pcs rest with
                | none => rw [hrest] at h; simp at h
                | some ms' =>
                    rw [hrest] at h
                    simp only [Option.map_some', Option.some.injEq] at h
                    have hpass : trialPasses age gender pcs st = false := by
                      unfold trialPasses
                      rw [hok, hint]
                      simp
                    unfold specMatches
                    rw [List.filter_cons_of_neg (by simp [hpass])]
                    rw [← h]
                    exact ih ms' hrest
              · rw [if_neg hint] at h
                simp only [Option.some_bind] at h
                cases hrest : process_studies age gender pcs rest with
                | none => rw [hrest] at h; simp at h
                | some ms' =>
                    rw [hrest] at h
                    simp only [Option.map_some', Option.some.injEq] at h
                    have hpass : trialPasses age gender pcs st = true := by
                      unfold trialPasses
                      rw [hok]
                      simp only [Bool.not_eq_true] at hint ⊢
                      simp [hint]
                    unfold specMatches
                    rw [List.filter_cons_of_pos (by simp [hpass])]
                    rw [List.map_cons]
                    rw [← h]
                    unfold specMatches at ih
                    rw [ih ms' hrest]
                    rfl

/-- C1: confirmed.  `match_patient_to_trials` contract: a patient whose
(coerced) condition list is empty yields the empty match list and zero
registry fetches; otherwise, whenever the run completes without an
exception, exactly one fetch is issued (on the first condition) and the
result is, in registry response order, one Match per fetched trial that
passes the structured age/sex criteria and has a non-empty case-insensitive
condition intersection with the full patient condition list, each Match
carrying the trial's id, title and that intersection. -/
theorem match_patient_to_trials_contract (age : Int) (gender : String)
    (condField : CondListField) (statuses : List String)
    (fetch : String → Int → List String → List Study) :
    (get_condition_list condField = [] →
      match_patient_to_trials age gender condField statuses fetch = some ([], 0)) ∧
    (∀ primary rest out,
      get_condition_list condField = primary :: rest →
      match_patient_to_trials age gender condField statuses fetch = some out →
      out.2 = 1 ∧
        out.1 = specMatches age gender (primary :: rest) (fetch primary age statuses)) := by
  constructor
  · intro hnil
    unfold match_patient_to_trials
    rw [hnil]
  · intro primary rest out hcons hout
    unfold match_patient_to_trials at hout
    rw [hcons] at hout
    have hout2 : (process_studies age gender (primary :: rest)
        (fetch primary age statuses)).map (fun matched => (matched, 1)) = some out := hout
    cases hps : process_studies age gender (primary :: rest) (fetch primary age statuses) with
    | none => rw [hps] at hout2; simp at hout2
    | some ms =>
        rw [hps] at hout2
        simp only [Option.map_some', Option.some.injEq] at hout2
        rw [← hout2]
        exact ⟨rfl, process_studies_eq_spec age gender (primary :: rest) _ ms hps⟩

/-- The trial of the spec's end-to-end example (§8): 18-70 years, FEMALE,
conditions Diabetes and Obesity. -/
def sampleStudy : Study :=
  ⟨some ⟨some "18 Years", some "70 Years", some "FEMALE"⟩,
    some ["Diabetes", "Obesity"], some "NCT1", some "T1"⟩

/-- A registry oracle that returns the sample trial for every query. -/
def sampleFetch : String → Int → List String → List Study :=
  fun _ _ _ => [sampleStudy]

/-- Witness for C1 at the spec's end-to-end example: patient age 45, sex "F",
conditions ["Diabetes"]. -/
theorem match_patient_to_trials_contract_witness :
    match_patient_to_trials 45 "F" (.ofList ["Diabetes"]) default_statuses sampleFetch =
      some ([⟨"NCT1", "T1", ["Diabetes"]⟩], 1) ∧
    specMatches 45 "F" ["Diabetes"] (sampleFetch "Diabetes" 45 default_statuses) =
      [⟨"NCT1", "T1", ["Diabetes"]⟩] := by
  have hm : match_patient_to_trials 45 "F" (.ofList ["Diabetes"]) default_statuses sampleFetch =
      some ([⟨"NCT1", "T1", ["Diabetes"]⟩], 1) := by decide
  have h := ((match_patient_to_trials_contract 45 "F" (.ofList ["Diabetes"])
      default_statuses sampleFetch).2 "Diabetes" [] ([⟨"NCT1", "T1", ["Diabetes"]⟩], 1)
      rfl hm).2
  exact ⟨hm, h.symm⟩

/-- C9: confirmed.  Every Match in a completed `match_patient_to_trials`
result has a non-empty `eligibilityCriteriaMet` list: a trial with zero
overlapping conditions never appears. -/
theorem match_patient_matches_nonempty (age : Int) (gender : String)
    (condField : CondListField) (statuses : List String)
    (fetch : String → Int → List String → List Study)
    (out : List MatchRec × Nat)
    (hout : match_patient_to_trials age gender condField statuses fetch = some out) :
    ∀ m ∈ out.1, m.eligibilityCriteriaMet ≠ [] := by
  intro m hm
  unfold match_patient_to_trials at hout
  cases hcl : get_condition_list condField with
  | nil =>
      rw [hcl] at hout
      simp only [Option.some.injEq] at hout
      rw [← hout] at hm
      exact absurd hm (List.not_mem_nil m)
  | cons primary rest =>
      rw [hcl] at hout
      have hout2 : (process_studies age gender (primary :: rest)
          (fetch primary age statuses)).map (fun matched => (matched, 1)) = some out := hout
      cases hps : process_studies age gender (primary :: rest) (fetch primary age statuses) with
      | none => rw [hps] at hout2; simp at hout2
      | some ms =>
          rw [hps] at hout2
          simp only [Option.map_some', Option.some.injEq] at hout2
          rw [← hout2] at hm
          have hspec := process_studies_eq_spec age gender (primary :: rest) _ ms hps
          rw [hspec] at hm
          unfold specMatches at hm
          rcases List.mem_map.mp hm with ⟨st, hst, hsteq⟩
          have hpass := (List.mem_filter.mp hst).2
          unfold trialPasses at hpass
          have hne : intersect_conditions (primary :: rest) (st.conditions.getD []) ≠ [] := by
            intro heq
            rw [heq] at hpass
            simp at hpass
          rw [← hsteq]
          unfold matchOfStudy
          exact hne

/-- Witness for C9 at the end-to-end example: the single produced Match has
the non-empty matched-condition list ["Diabetes"]. -/
theorem match_patient_matches_nonempty_witness :
    (⟨"NCT1", "T1", ["Diabetes"]⟩ : MatchRec).eligibilityCriteriaMet ≠ [] :=
  match_patient_matches_nonempty 45 "F" (.ofList ["Diabetes"]) default_statuses sampleFetch
    ([⟨"NCT1", "T1", ["Diabetes"]⟩], 1) (by decide)
    ⟨"NCT1", "T1", ["Diabetes"]⟩ (by decide)

/-- C10: confirmed.  A condition-list field that is absent or not a list is
coerced to the empty list: the result is the empty match list with zero
registry fetches and no exception. -/
theorem match_patient_missing_condition_field (age : Int) (gender : String)
    (statuses : List String) (fetch : String → Int → List String → List Study) :
    match_patient_to_trials age gender .absent statuses fetch = some ([], 0) ∧
    match_patient_to_trials age gender .notList statuses fetch = some ([], 0) := by
  constructor <;> rfl

/-- One page of the registry's JSON response: a `studies` array and an
optional `nextPageToken`. -/
structure Page where
  studies : List Study
  nextPageToken : Option String
  deriving DecidableEq

/-- The registry's behaviour on one HTTP GET, keyed by the `pageToken`
parameter (`none` on the first request): a parsed page, a non-success HTTP
status (`resp.raise_for_status()` raises), or a malformed JSON body
(`resp.json()` raises). -/
inductive RegistryResp
  | ok (page : Page)
  | httpError
  | badJson
  deriving DecidableEq

/-- The two exceptions a page request can raise. -/
inductive FetchError
  | httpError
  | badJson
  deriving DecidableEq

/-- Decidable equality for `Except`, used to evaluate fetch results. -/
instance exceptDecEq {ε α : Type} [DecidableEq ε] [DecidableEq α] :
    DecidableEq (Except ε α)
  | .ok a, .ok b =>
      if h : a = b then isTrue (by rw [h])
      else isFalse (by intro hc; injection hc with h2; exact h h2)
  | .ok _, .error _ => isFalse (by intro hc; cases hc)
  | .error _, .ok _ => isFalse (by intro hc; cases hc)
  | .error e, .error f =>
      if h : e = f then isTrue (by rw [h])
      else isFalse (by intro hc; injection hc with h2; exact h h2)

/-- The response that raises a given error. -/
def respOfError : FetchError → RegistryResp
  | .httpError => .httpError
  | .badJson => .badJson

/-- Python truthiness of `next_token` (`if not next_token: break`): falsy for
a missing token and for the empty string. -/
def tokenTruthy : Option String → Bool
  | none => false
  | some t => !t.data.isEmpty

/-- The `while True` pagination loop of `fetch_ctg_studies` (proc.py lines
150-163), with explicit fuel: `none` means the fuel ran out, i.e. the loop
has not terminated within that many iterations.  Query construction (the
fixed params of lines 140-148) is absorbed into the `server` oracle, which
depends only on the varying `pageToken` parameter. -/
def fetch_ctg_studies_loop (server : Option String → RegistryResp) :
    Nat → Option String → List Study → Option (Except FetchError (List Study))
  | 0, _, _ => none
  | fuel + 1, tok, studies =>
      match server tok with
      | .httpError => some (.error .httpError)
      | .badJson => some (.error .badJson)
      | .ok page =>
          if tokenTruthy page.nextPageToken then
            fetch_ctg_studies_loop server fuel page.nextPageToken (studies ++ page.studies)
          else some (.ok (studies ++ page.studies))

/-- `fetch_ctg_studies` (proc.py lines 126-163): start with no page token and
an empty accumulator. -/
def fetch_ctg_studies (server : Option String → RegistryResp) (fuel : Nat) :
    Option (Except FetchError (List Study)) :=
  fetch_ctg_studies_loop server fuel none []

/-- The `pageToken` parameter carried by the j-th request of a run that saw
pages `pages 0, pages 1, ...`: none at first, then each page's token. -/
def reqToken (pages : Nat → Page) (tok0 : Option String) : Nat → Option String
  | 0 => tok0
  | j + 1 => (pages j).nextPageToken

/-- Shifting the page sequence by one shifts the request tokens. -/
theorem reqToken_shift (pages : Nat → Page) (tok0 : Option String) (j : Nat) :
    reqToken (fun k => pages (k + 1)) ((pages 0).nextPageToken) j =
      reqToken pages tok0 (j + 1) := by
  cases j <;> rfl

/-- Splitting the concatenation of `n + 1` pages into the first page and the
rest. -/
theorem range_flatMap_succ {α : Type} (f : Nat → List α) (n : Nat) :
    (List.range (n + 1)).flatMap f = f 0 ++ (List.range n).flatMap fun k => f (k + 1) := by
  rw [List.range_succ_eq_map]
  simp [List.flatMap_cons, List.flatMap_map, Nat.succ_eq_add_one]

/-- If the server answers the request chain with `ok` pages whose tokens are
truthy up to page `N` and page `N`'s token is falsy, the loop terminates
(once the fuel exceeds `N`) with the in-order concatenation of all pages'
studies appended to the accumulator. -/
theorem fetch_loop_ok_chain (server : Option String → RegistryResp) :
    ∀ (N : Nat) (pages : Nat → Page) (tok0 : Option String) (acc : List Study),
      (∀ j, j ≤ N → server (reqToken pages tok0 j) = .ok (pages j)) →
      (∀ j, j < N → tokenTruthy (pages j).nextPageToken = true) →
      tokenTruthy (pages N).nextPageToken = false →
      ∀ fuel, N < fuel →
        fetch_ctg_studies_loop server fuel tok0 acc =
          some (.ok (acc ++ (List.range (N + 1)).flatMap fun k => (pages k).studies)) := by
  intro N
  induction N with
  | zero =>
      intro pages tok0 acc hok htr hlast fuel hfuel
      obtain ⟨f, rfl⟩ : ∃ f, fuel = f + 1 := ⟨fuel - 1, by omega⟩
      unfold fetch_ctg_studies_loop
      have h0 : server (reqToken pages tok0 0) = .ok (pages 0) := hok 0 (le_refl 0)
      simp only [show server tok0 = .ok (pages 0) from h0]
      rw [if_neg (by rw [hlast]; decide)]
      simp [range_flatMap_succ]
  | succ n ih =>
      intro pages tok0 acc hok htr hlast fuel hfuel
      obtain ⟨f, rfl⟩ : ∃ f, fuel = f + 1 := ⟨fuel - 1, by omega⟩
      unfold fetch_ctg_studies_loop
      have h0 : server (reqToken pages tok0 0) = .ok (pages 0) := hok 0 (by omega)
      simp only [show server tok0 = .ok (pages 0) from h0]
      rw [if_pos (htr 0 (by omega))]
      have hrec := ih (fun k => pages (k + 1)) ((pages 0).nextPageToken)
        (acc ++ (pages 0).studies)
        (fun j hj => by rw [reqToken_shift pages tok0 j]; exact hok (j + 1) (by omega))
        (fun j hj => htr (j + 1) (by omega))
        hlast f (by omega)
      rw [hrec]
      rw [range_flatMap_succ (fun k => (pages k).studies) (n + 1)]
      simp [List.append_assoc]

/-- If every response carries a truthy next-page token, the loop never
terminates: it exhausts any amount of fuel. -/
theorem fetch_loop_all_tokens_diverges (server : Option String → RegistryResp)
    (hall : ∀ tok, ∃ page, server tok = .ok page ∧ tokenTruthy page.nextPageToken = true) :
    ∀ (fuel : Nat) (tok : Option String) (acc : List Study),
      fetch_ctg_studies_loop server fuel tok acc = none := by
  intro fuel
  induction fuel with
  | zero => intro tok acc; rfl
  | succ f ih =>
      intro tok acc
      obtain ⟨page, hs, ht⟩ := hall tok
      unfold fetch_ctg_studies_loop
      simp only [hs]
      rw [if_pos ht]
      exact ih _ _

/-- If the first `k` responses of the chain are `ok` pages with truthy tokens
and the `k`-th request draws an error response, the loop returns exactly that
error (no studies) once the fuel exceeds `k`. -/
theorem fetch_loop_error_chain (server : Option String → RegistryResp) :
    ∀ (k : Nat) (pages : Nat → Page) (tok0 : Option String) (acc : List Study)
      (e : FetchError),
      (∀ j, j < k → server (reqToken pages tok0 j) = .ok (pages j) ∧
        tokenTruthy (pages j).nextPageToken = true) →
      server (reqToken pages tok0 k) = respOfError e →
      ∀ fuel, k < fuel →
        fetch_ctg_studies_loop server fuel tok0 acc = some (.error e) := by
  intro k
  induction k with
  | zero =>
      intro pages tok0 acc e hok herr fuel hfuel
      obtain ⟨f, rfl⟩ : ∃ f, fuel = f + 1 := ⟨fuel - 1, by omega⟩
      unfold fetch_ctg_studies_loop
      simp only [show server tok0 = respOfError e from herr]
      cases e <;> rfl
  | succ n ih =>
      intro pages tok0 acc e hok herr fuel hfuel
      obtain ⟨f, rfl⟩ : ∃ f, fuel = f + 1 := ⟨fuel - 1, by omega⟩
      unfold fetch_ctg_studies_loop
      obtain ⟨h0, ht0⟩ := hok 0 (by omega)
      simp only [show server tok0 = .ok (pages 0) from h0]
      rw [if_pos ht0]
      exact ih (fun k => pages (k + 1)) ((pages 0).nextPageToken)
        (acc ++ (pages 0).studies) e
        (fun j hj => by rw [reqToken_shift pages tok0 j]; exact hok (j + 1) (by omega))
        (by rw [reqToken_shift pages tok0 n]; exact herr)
        f (by omega)

/-- C3: confirmed.  First conjunct: when the registry's response chain
consists of `ok` pages whose tokens are present (truthy) up to page `N` and
page `N` carries no next-page token, `fetch_ctg_studies` terminates — its
result is independent of any fuel above `N` — and returns the in-order
concatenation of the `studies` arrays of pages `0..N`, each page after the
first requested with the previous page's token.  Second conjunct: the loop
has no intrinsic page bound — if every page carries a (truthy) token, no
amount of fuel makes the loop terminate. -/
theorem fetch_ctg_studies_pagination :
    (∀ (server : Option String → RegistryResp) (N : Nat) (pages : Nat → Page),
      (∀ j, j ≤ N → server (reqToken pages none j) = .ok (pages j)) →
      (∀ j, j < N → tokenTruthy (pages j).nextPageToken = true) →
      tokenTruthy (pages N).nextPageToken = false →
      ∀ fuel, N < fuel →
        fetch_ctg_studies server fuel =
          some (.ok ((List.range (N + 1)).flatMap fun k => (pages k).studies))) ∧
    (∀ server : Option String → RegistryResp,
      (∀ tok, ∃ page, server tok = .ok page ∧ tokenTruthy page.nextPageToken = true) →
      ∀ fuel, fetch_ctg_studies server fuel = none) := by
  constructor
  · intro server N pages hok htr hlast fuel hfuel
    have h := fetch_loop_ok_chain server N pages none [] hok htr hlast fuel hfuel
    simpa using h
  · intro server hall fuel
    exact fetch_loop_all_tokens_diverges server hall fuel none []

/-- A second study, distinct from `sampleStudy`, for pagination witnesses. -/
def otherStudy : Study :=
  ⟨none, some ["Asthma"], some "NCT2", some "T2 study"⟩

/-- A two-page registry: the first request answers with a token "T2"; the
request carrying "T2" answers the final page. -/
def twoPageServer : Option String → RegistryResp
  | none => .ok ⟨[sampleStudy], some "T2"⟩
  | some "T2" => .ok ⟨[otherStudy], none⟩
  | some _ => .httpError

/-- The page sequence `twoPageServer` serves. -/
def twoPages : Nat → Page
  | 0 => ⟨[sampleStudy], some "T2"⟩
  | _ => ⟨[otherStudy], none⟩

/-- A registry that answers every request with a fresh page and token. -/
def endlessServer : Option String → RegistryResp :=
  fun _ => .ok ⟨[], some "T"⟩

/-- Witness for C3: the two-page response is merged in order, and the endless
registry exhausts any fuel. -/
theorem fetch_ctg_studies_pagination_witness :
    fetch_ctg_studies twoPageServer 3 = some (.ok [sampleStudy, otherStudy]) ∧
    fetch_ctg_studies endlessServer 5 = none := by
  constructor
  · have h := fetch_ctg_studies_pagination.1 twoPageServer 1 twoPages
      (fun j hj => by interval_cases j <;> rfl)
      (fun j hj => by interval_cases j; decide)
      (by decide) 3 (by omega)
    exact h.trans (by decide)
  · exact fetch_ctg_studies_pagination.2 endlessServer
      (fun tok => ⟨⟨[], some "T"⟩, rfl, by decide⟩) 5

/-- C4: confirmed.  If, after `k` successful pages with truthy tokens, the
`k`-th request yields a non-success HTTP status or a malformed JSON body,
`fetch_ctg_studies` returns exactly that error for any sufficient fuel: the
exception propagates to the caller and the result carries no partial
accumulation of the already-retrieved pages. -/
theorem fetch_ctg_studies_error_propagates
    (server : Option String → RegistryResp) (k : Nat) (pages : Nat → Page)
    (e : FetchError)
    (hok : ∀ j, j < k → server (reqToken pages none j) = .ok (pages j) ∧
      tokenTruthy (pages j).nextPageToken = true)
    (herr : server (reqToken pages none k) = respOfError e) :
    ∀ fuel, k < fuel → fetch_ctg_studies server fuel = some (.error e) :=
  fun fuel hf => fetch_loop_error_chain server k pages none [] e hok herr fuel hf

/-- A registry whose second page request yields a malformed JSON body. -/
def badJsonServer : Option String → RegistryResp
  | none => .ok ⟨[sampleStudy], some "T2"⟩
  | some "T2" => .badJson
  | some _ => .httpError

/-- Witness for C4: after one good page, the second request's malformed JSON
aborts the whole fetch with no partial results. -/
theorem fetch_ctg_studies_error_propagates_witness :
    fetch_ctg_studies badJsonServer 3 = some (.error .badJson) :=
  fetch_ctg_studies_error_propagates badJsonServer 1 twoPages .badJson
    (fun j hj => by interval_cases j; exact ⟨rfl, by decide⟩)
    rfl 3 (by omega)
